import Mathlib

/-!
Verification development for the RV32IM zkVM core.

The definitions below are shallow embeddings of the Rust sources:
* namespace `RT`  — `src/core/src/runtime/mod.rs` (interpreter).
* namespace `EXE` — `src/crates/core/executor/src/record.rs` (execution record).
* namespace `AIR` — `src/core/src/air/public_values.rs` (public values block).

Machine integers are modelled as `Nat` with explicit `% 2^32` where the source
wraps; `i32` values are interpreted through `toI32 : Nat → Int`.  Rust
operations that can panic (division by zero, shift amounts ≥ 32, unchecked
`+`) are modelled as `Option`-valued, `none` standing for the panic.
Hash maps are modelled as association lists or as `Nat → Option Nat`
update functions; `Vec` is `List`.
-/

namespace RT

/-- The opcode enumeration of `runtime/mod.rs` (stable discriminants 0..46). -/
inductive Opcode where
  | ADD | SUB | XOR | OR | AND | SLL | SRL | SRA | SLT | SLTU
  | ADDI | XORI | ORI | ANDI | SLLI | SRLI | SRAI | SLTI | SLTIU
  | LB | LH | LW | LBU | LHU
  | SB | SH | SW
  | BEQ | BNE | BLT | BGE | BLTU | BGEU
  | JAL | JALR | LUI | AUIPC
  | ECALL | EBREAK
  | MUL | MULH | MULSU | MULU | DIV | DIVU | REM | REMU
deriving DecidableEq, Repr

/-- An instruction: opcode plus the three raw 32-bit operands. -/
structure Instruction where
  opcode : Opcode
  a : Nat
  b : Nat
  c : Nat
deriving DecidableEq, Repr

/-- `Register::from_u32` panics for values ≥ 32; modelled as `Option (Fin 32)`. -/
def regFromU32 (v : Nat) : Option (Fin 32) :=
  if h : v < 32 then some ⟨v, h⟩ else none

/-- `Instruction::r_type`: three register operands. -/
def Instruction.rType (i : Instruction) : Option (Fin 32 × Fin 32 × Fin 32) := do
  let a ← regFromU32 i.a
  let b ← regFromU32 i.b
  let c ← regFromU32 i.c
  pure (a, b, c)

/-- `Instruction::i_type`: two registers and an immediate (same shape is used
for `s_type` and `b_type` in the source). -/
def Instruction.iType (i : Instruction) : Option (Fin 32 × Fin 32 × Nat) := do
  let a ← regFromU32 i.a
  let b ← regFromU32 i.b
  pure (a, b, i.c)

/-- `Instruction::s_type` (same body as `i_type` in the source). -/
def Instruction.sType (i : Instruction) : Option (Fin 32 × Fin 32 × Nat) := do
  let a ← regFromU32 i.a
  let b ← regFromU32 i.b
  pure (a, b, i.c)

/-- `Instruction::b_type` (same body as `i_type` in the source). -/
def Instruction.bType (i : Instruction) : Option (Fin 32 × Fin 32 × Nat) := do
  let a ← regFromU32 i.a
  let b ← regFromU32 i.b
  pure (a, b, i.c)

/-- `Instruction::j_type`: one register and an immediate (same shape as
`u_type`). -/
def Instruction.jType (i : Instruction) : Option (Fin 32 × Nat) := do
  let a ← regFromU32 i.a
  pure (a, i.b)

/-- `Instruction::u_type` (same body as `j_type` in the source). -/
def Instruction.uType (i : Instruction) : Option (Fin 32 × Nat) := do
  let a ← regFromU32 i.a
  pure (a, i.b)

/-- Memory operation kind of a `MemoryEvent`. -/
inductive MemOp where
  | read
  | write
deriving DecidableEq, Repr

/-- A memory event, as emitted by `rm`/`wm`. -/
structure MemoryEvent where
  clk : Nat
  addr : Nat
  op : MemOp
  value : Nat
deriving DecidableEq, Repr

/-- An ALU event of the interpreter (`clk, opcode, a, b, c`). -/
structure AluEvent where
  clk : Nat
  opcode : Opcode
  a : Nat
  b : Nat
  c : Nat
deriving DecidableEq, Repr

/-- The interpreter state (`struct Runtime`).  The `BTreeMap<u32,u32>` memory
is a partial map, the `[u32; 32]` register array a total function. -/
structure Runtime where
  clk : Nat
  pc : Nat
  code : List Instruction
  registers : Fin 32 → Nat
  memory : Nat → Option Nat
  memory_events : List MemoryEvent
  alu_events : List AluEvent

/-- `Runtime::new`. -/
def Runtime.new (code : List Instruction) : Runtime :=
  { clk := 0, pc := 0, code := code, registers := fun _ => 0,
    memory := fun _ => none, memory_events := [], alu_events := [] }

/-- The base address at which the register file is aliased into memory
(`1024 * 1024 * 8`). -/
def REG_BASE : Nat := 1024 * 1024 * 8

/-- The memory-size sentinel written to x2 at initialization. -/
def MEM_SIZE : Nat := 1024 * 1024 * 8

/-- `Runtime::rm`: read memory, absent addresses yield 0; a read event is
emitted. -/
def rm (s : Runtime) (addr : Nat) : Nat × Runtime :=
  let value := match s.memory addr with
    | some v => v
    | none => 0
  (value,
   { s with memory_events :=
       s.memory_events ++ [{ clk := s.clk, addr := addr, op := .read, value := value }] })

/-- `Runtime::rr`: read a register through the memory alias. -/
def rr (s : Runtime) (r : Fin 32) : Nat × Runtime :=
  rm s (REG_BASE + r.val)

/-- `Runtime::wm`: write memory, emitting a write event. -/
def wm (s : Runtime) (addr value : Nat) : Runtime :=
  { s with
    memory_events :=
      s.memory_events ++ [{ clk := s.clk, addr := addr, op := .write, value := value }],
    memory := fun a => if a = addr then some value else s.memory a }

/-- `Runtime::wr`: write a register through the memory alias. -/
def wr (s : Runtime) (r : Fin 32) (value : Nat) : Runtime :=
  wm s (REG_BASE + r.val) value

/-- `Runtime::fetch`: the instruction at `code[pc / 4]` (`none` models the
out-of-bounds indexing panic). -/
def fetch (s : Runtime) : Option Instruction :=
  s.code.get? (s.pc / 4)

/-- `Runtime::emit_alu`. -/
def emitAlu (s : Runtime) (opcode : Opcode) (a b c : Nat) : Runtime :=
  { s with alu_events :=
      s.alu_events ++ [{ clk := s.clk, opcode := opcode, a := a, b := b, c := c }] }

/-- 2^32. -/
def U32MOD : Nat := 4294967296

/-- Reinterpret a `u32` value as an `i32`. -/
def toI32 (x : Nat) : Int :=
  if x < 2147483648 then (x : Int) else (x : Int) - 4294967296

/-- Truncate an integer back to its `u32` representation. -/
def toU32 (x : Int) : Nat :=
  (x % 4294967296).toNat

/-- `u32::wrapping_add`. -/
def wadd (a b : Nat) : Nat := (a + b) % U32MOD

/-- `u32::wrapping_mul`. -/
def wmul (a b : Nat) : Nat := (a * b) % U32MOD

/-- `u8` sign extension (`as i8 as u32`). -/
def sext8 (x : Nat) : Nat :=
  let b := x % 256
  if b < 128 then b else b + 4294967040

/-- `u16` sign extension (`as i16 as u32`). -/
def sext16 (x : Nat) : Nat :=
  let h := x % 65536
  if h < 32768 then h else h + 4294901760

/-- `u32 << c` (panics — `none` — when the shift amount is ≥ 32, otherwise the
shifted-out bits are discarded). -/
def shl32 (b c : Nat) : Option Nat :=
  if c < 32 then some ((b <<< c) % U32MOD) else none

/-- `u32 >> c` (panics when the shift amount is ≥ 32). -/
def shr32 (b c : Nat) : Option Nat :=
  if c < 32 then some (b >>> c) else none

/-- `i32 >> c` arithmetic shift (panics when the shift amount is ≥ 32);
arithmetic right shift is floor division by `2^c`. -/
def sra32 (b c : Nat) : Option Nat :=
  if c < 32 then some (toU32 (Int.fdiv (toI32 b) (2 ^ c))) else none

/-- `i32::wrapping_div` on `u32` representations: panics on a zero divisor,
wraps `INT_MIN / -1` (the wrap is absorbed by `toU32`). -/
def divI32 (b c : Nat) : Option Nat :=
  if c = 0 then none else some (toU32 (Int.tdiv (toI32 b) (toI32 c)))

/-- `i32::wrapping_rem` on `u32` representations: panics on a zero divisor. -/
def remI32 (b c : Nat) : Option Nat :=
  if c = 0 then none else some (toU32 (Int.tmod (toI32 b) (toI32 c)))

/-- `u32::wrapping_div`: panics on a zero divisor. -/
def divU32 (b c : Nat) : Option Nat :=
  if c = 0 then none else some (b / c)

/-- `u32::wrapping_rem`: panics on a zero divisor. -/
def remU32 (b c : Nat) : Option Nat :=
  if c = 0 then none else some (b % c)

/-- Wrap an integer into the `i64` range. -/
def wrapI64 (x : Int) : Int :=
  ((x + 9223372036854775808) % 18446744073709551616) - 9223372036854775808

/-- `((b as i64).wrapping_mul(c as i64) >> 32) as u32` for `u32` operands b, c
(the source zero-extends the `u32`s into `i64`). -/
def mulhRaw (b c : Nat) : Nat :=
  toU32 (Int.fdiv (wrapI64 ((b : Int) * (c : Int))) 4294967296)

/-- `((b as u64).wrapping_mul(c as u64) >> 32) as u32`. -/
def muluRaw (b c : Nat) : Nat :=
  ((b * c) >>> 32) % U32MOD

/-- `Runtime::execute`, one arm per opcode.  `none` models a Rust panic
(`todo!()`, division by zero, an unchecked `+` or shift overflow). -/
def execute (i : Instruction) (s : Runtime) : Option Runtime :=
  match i.opcode with
  | .ADD => do
      let (rd, rs1, rs2) ← i.rType
      let (b, s) := rr s rs1
      let (c, s) := rr s rs2
      let a := wadd b c
      pure (emitAlu (wr s rd a) .ADD a b c)
  | .SUB => do
      let (rd, rs1, rs2) ← i.rType
      let (b, s) := rr s rs1
      let (c, s) := rr s rs2
      let a := toU32 ((b : Int) - (c : Int))
      pure (emitAlu (wr s rd a) .SUB a b c)
  | .XOR => do
      let (rd, rs1, rs2) ← i.rType
      let (b, s) := rr s rs1
      let (c, s) := rr s rs2
      let a := b ^^^ c
      pure (emitAlu (wr s rd a) .XOR a b c)
  | .OR => do
      let (rd, rs1, rs2) ← i.rType
      let (b, s) := rr s rs1
      let (c, s) := rr s rs2
      let a := b ||| c
      pure (emitAlu (wr s rd a) .OR a b c)
  | .AND => do
      let (rd, rs1, rs2) ← i.rType
      let (b, s) := rr s rs1
      let (c, s) := rr s rs2
      let a := b &&& c
      pure (emitAlu (wr s rd a) .AND a b c)
  | .SLL => do
      let (rd, rs1, rs2) ← i.rType
      let (b, s) := rr s rs1
      let (c, s) := rr s rs2
      let a ← shl32 b c
      pure (emitAlu (wr s rd a) .SLL a b c)
  | .SRL => do
      let (rd, rs1, rs2) ← i.rType
      let (b, s) := rr s rs1
      let (c, s) := rr s rs2
      let a ← shr32 b c
      pure (emitAlu (wr s rd a) .SRL a b c)
  | .SRA => do
      let (rd, rs1, rs2) ← i.rType
      let (b, s) := rr s rs1
      let (c, s) := rr s rs2
      let a ← sra32 b c
      pure (emitAlu (wr s rd a) .SRA a b c)
  | .SLT => do
      let (rd, rs1, rs2) ← i.rType
      let (b, s) := rr s rs1
      let (c, s) := rr s rs2
      let a := if toI32 b < toI32 c then 1 else 0
      pure (emitAlu (wr s rd a) .SLT a b c)
  | .SLTU => do
      let (rd, rs1, rs2) ← i.rType
      let (b, s) := rr s rs1
      let (c, s) := rr s rs2
      let a := if b < c then 1 else 0
      pure (emitAlu (wr s rd a) .SLTU a b c)
  | .ADDI => do
      let (rd, rs1, imm) ← i.iType
      let (b, s) := rr s rs1
      let c := imm
      let a := wadd b c
      pure (emitAlu (wr s rd a) .ADDI a b c)
  | .XORI => do
      let (rd, rs1, imm) ← i.iType
      let (b, s) := rr s rs1
      let c := imm
      let a := b ^^^ c
      pure (emitAlu (wr s rd a) .XORI a b c)
  | .ORI => do
      let (rd, rs1, imm) ← i.iType
      let (b, s) := rr s rs1
      let c := imm
      let a := b ||| c
      pure (emitAlu (wr s rd a) .ORI a b c)
  | .ANDI => do
      let (rd, rs1, imm) ← i.iType
      let (b, s) := rr s rs1
      let c := imm
      let a := b &&& c
      pure (emitAlu (wr s rd a) .ANDI a b c)
  | .SLLI => do
      let (rd, rs1, imm) ← i.iType
      let (b, s) := rr s rs1
      let c := imm
      let a ← shl32 b c
      pure (emitAlu (wr s rd a) .SLLI a b c)
  | .SRLI => do
      let (rd, rs1, imm) ← i.iType
      let (b, s) := rr s rs1
      let c := imm
      let a ← shr32 b c
      pure (emitAlu (wr s rd a) .SRLI a b c)
  | .SRAI => do
      let (rd, rs1, imm) ← i.iType
      let (b, s) := rr s rs1
      let c := imm
      let a ← sra32 b c
      pure (emitAlu (wr s rd a) .SRAI a b c)
  | .SLTI => do
      let (rd, rs1, imm) ← i.iType
      let (b, s) := rr s rs1
      let c := imm
      let a := if toI32 b < toI32 c then 1 else 0
      pure (emitAlu (wr s rd a) .SLTI a b c)
  | .SLTIU => do
      let (rd, rs1, imm) ← i.iType
      let (b, s) := rr s rs1
      let c := imm
      let a := if b < c then 1 else 0
      pure (emitAlu (wr s rd a) .SLTIU a b c)
  | .LB => do
      let (rd, rs1, imm) ← i.iType
      let (av, s) := rr s rs1
      let addr := wadd av imm
      let (v, s) := rm s addr
      pure (wr s rd (sext8 v))
  | .LH => do
      let (rd, rs1, imm) ← i.iType
      let (av, s) := rr s rs1
      let addr := wadd av imm
      let (v, s) := rm s addr
      pure (wr s rd (sext16 v))
  | .LW => do
      let (rd, rs1, imm) ← i.iType
      let (av, s) := rr s rs1
      let addr := wadd av imm
      let (v, s) := rm s addr
      pure (wr s rd v)
  | .LBU => do
      let (rd, rs1, imm) ← i.iType
      let (av, s) := rr s rs1
      let addr := wadd av imm
      let (v, s) := rm s addr
      pure (wr s rd (v % 256))
  | .LHU => do
      let (rd, rs1, imm) ← i.iType
      let (av, s) := rr s rs1
      let addr := wadd av imm
      let (v, s) := rm s addr
      pure (wr s rd (v % 65536))
  | .SB => do
      let (rs1, rs2, imm) ← i.sType
      let (av, s) := rr s rs1
      let addr := wadd av imm
      let (v, s) := rr s rs2
      pure (wm s addr (v % 256))
  | .SH => do
      let (rs1, rs2, imm) ← i.sType
      let (av, s) := rr s rs1
      let addr := wadd av imm
      let (v, s) := rr s rs2
      pure (wm s addr (v % 65536))
  | .SW => do
      let (rs1, rs2, imm) ← i.sType
      let (av, s) := rr s rs1
      let addr := wadd av imm
      let (v, s) := rr s rs2
      pure (wm s addr v)
  | .BEQ => do
      let (rs1, rs2, imm) ← i.bType
      let (bv, s) := rr s rs1
      let (cv, s) := rr s rs2
      pure (if bv = cv then { s with pc := wadd s.pc imm } else s)
  | .BNE => do
      let (rs1, rs2, imm) ← i.bType
      let (bv, s) := rr s rs1
      let (cv, s) := rr s rs2
      pure (if bv ≠ cv then { s with pc := wadd s.pc imm } else s)
  | .BLT => do
      let (rs1, rs2, imm) ← i.bType
      let (bv, s) := rr s rs1
      let (cv, s) := rr s rs2
      pure (if toI32 bv < toI32 cv then { s with pc := wadd s.pc imm } else s)
  | .BGE => do
      let (rs1, rs2, imm) ← i.bType
      let (bv, s) := rr s rs1
      let (cv, s) := rr s rs2
      pure (if toI32 cv ≤ toI32 bv then { s with pc := wadd s.pc imm } else s)
  | .BLTU => do
      let (rs1, rs2, imm) ← i.bType
      let (bv, s) := rr s rs1
      let (cv, s) := rr s rs2
      pure (if bv < cv then { s with pc := wadd s.pc imm } else s)
  | .BGEU => do
      let (rs1, rs2, imm) ← i.bType
      let (bv, s) := rr s rs1
      let (cv, s) := rr s rs2
      pure (if cv ≤ bv then { s with pc := wadd s.pc imm } else s)
  | .JAL => do
      let (rd, imm) ← i.jType
      if s.pc + 4 < U32MOD then
        let s := wr s rd (s.pc + 4)
        pure { s with pc := wadd s.pc imm }
      else none
  | .JALR => do
      let (rd, rs1, imm) ← i.iType
      if s.pc + 4 < U32MOD then
        let s := wr s rd (s.pc + 4)
        let (bv, s) := rr s rs1
        pure { s with pc := wadd bv imm }
      else none
  | .LUI => do
      let (rd, imm) ← i.uType
      pure (wr s rd ((imm <<< 12) % U32MOD))
  | .AUIPC => do
      let (rd, imm) ← i.uType
      pure (wr s rd (wadd s.pc ((imm <<< 12) % U32MOD)))
  | .ECALL => none
  | .EBREAK => none
  | .MUL => do
      let (rd, rs1, rs2) ← i.rType
      let (b, s) := rr s rs1
      let (c, s) := rr s rs2
      let a := wmul b c
      pure (emitAlu (wr s rd a) .MUL a b c)
  | .MULH => do
      let (rd, rs1, rs2) ← i.rType
      let (b, s) := rr s rs1
      let (c, s) := rr s rs2
      let a := mulhRaw b c
      pure (emitAlu (wr s rd a) .MULH a b c)
  | .MULSU => do
      let (rd, rs1, rs2) ← i.rType
      let (b, s) := rr s rs1
      let (c, s) := rr s rs2
      let a := mulhRaw b c
      pure (emitAlu (wr s rd a) .MULSU a b c)
  | .MULU => do
      let (rd, rs1, rs2) ← i.rType
      let (b, s) := rr s rs1
      let (c, s) := rr s rs2
      let a := muluRaw b c
      pure (emitAlu (wr s rd a) .MULU a b c)
  | .DIV => do
      let (rd, rs1, rs2) ← i.rType
      let (b, s) := rr s rs1
      let (c, s) := rr s rs2
      let a ← divI32 b c
      pure (emitAlu (wr s rd a) .DIV a b c)
  | .DIVU => do
      let (rd, rs1, rs2) ← i.rType
      let (b, s) := rr s rs1
      let (c, s) := rr s rs2
      let a ← divU32 b c
      pure (emitAlu (wr s rd a) .DIVU a b c)
  | .REM => do
      let (rd, rs1, rs2) ← i.rType
      let (b, s) := rr s rs1
      let (c, s) := rr s rs2
      let a ← remI32 b c
      pure (emitAlu (wr s rd a) .REM a b c)
  | .REMU => do
      let (rd, rs1, rs2) ← i.rType
      let (b, s) := rr s rs1
      let (c, s) := rr s rs2
      let a ← remU32 b c
      pure (emitAlu (wr s rd a) .REMU a b c)

/-- The initialization performed at the top of `Runtime::run`: the two stores
into the `registers` array (x2 ← MEM_SIZE, x0 ← 0).  Note these touch the
array only — not the memory map that `rr`/`wr` use. -/
def runInit (s : Runtime) : Runtime :=
  { s with registers := fun r =>
      if r.val = 0 then 0
      else if r.val = 2 then MEM_SIZE
      else s.registers r }

/-- One iteration of the `run` loop body: fetch, advance pc by 4, execute,
and tick the clock. -/
def step (s : Runtime) : Option Runtime := do
  let i ← fetch s
  let s' ← execute i { s with pc := s.pc + 4 }
  pure { s' with clk := s'.clk + 1 }

/-- The outcome of running the loop with a fuel bound. -/
inductive Outcome where
  | ok : Runtime → Outcome
  | panicked : Outcome
  | fuelOut : Outcome

/-- The `while self.pc < (self.code.len() * 4)` loop of `Runtime::run`,
with explicit fuel (the source loop may not terminate; every claim below is
settled at a fuel that is not exhausted). -/
def loopRun : Nat → Runtime → Outcome
  | 0, s => if s.pc < 4 * s.code.length then .fuelOut else .ok s
  | fuel + 1, s =>
    if s.pc < 4 * s.code.length then
      match step s with
      | some s' => loopRun fuel s'
      | none => .panicked
    else .ok s

/-- `Runtime::run` on a fresh runtime for `code`. -/
def run (fuel : Nat) (code : List Instruction) : Outcome :=
  loopRun fuel (runInit (Runtime.new code))

/-- The memory cell at `addr` in the final state of a successful run
(`none` when the run panicked or ran out of fuel). -/
def runMem (fuel : Nat) (code : List Instruction) (addr : Nat) : Option (Option Nat) :=
  match run fuel code with
  | .ok s => some (s.memory addr)
  | _ => none

/-- The value a register read (`rr`) returns in the final state of a
successful run. -/
def runRegRead (fuel : Nat) (code : List Instruction) (r : Fin 32) : Option Nat :=
  match run fuel code with
  | .ok s => some (rr s r).1
  | _ => none

/-- The value stored in the register file (read through the memory alias,
absent cells giving 0) in a state. -/
def regVal (s : Runtime) (r : Nat) : Nat :=
  match s.memory (REG_BASE + r) with
  | some v => v
  | none => 0

end RT

namespace EXE

/-- Modelled from the spec: a CPU event (type imported from `crate::events`);
only the `shard` field is consulted by `record.rs`. -/
structure CpuEvent where
  shard : Nat
  clk : Nat
  pc : Nat
deriving DecidableEq, Repr

/-- Modelled from the spec: `AluEvent{lookup_id, shard, clk, opcode, a, b, c}`
(type imported from `crate::events`); the opcode is kept as its discriminant. -/
structure AluEvent where
  lookup_id : Nat
  shard : Nat
  clk : Nat
  opcode : Nat
  a : Nat
  b : Nat
  c : Nat
deriving DecidableEq, Repr

/-- Modelled from the spec: `ByteLookupEvent{shard, kind, byte1, byte2, result}`
(type imported from `crate::events`); used only as a multiset key. -/
structure ByteLookupEvent where
  shard : Nat
  kind : Nat
  b1 : Nat
  b2 : Nat
  result : Nat
deriving DecidableEq, Repr

/-- Modelled from the spec:
`MemoryInitializeFinalizeEvent{addr, value, shard, timestamp, is_initialize}`
(type imported from `crate::events`); the flag field is named `is_init` here. -/
structure MemoryInitializeFinalizeEvent where
  addr : Nat
  value : Nat
  shard : Nat
  timestamp : Nat
  is_init : Bool
deriving DecidableEq, Repr

/-- Modelled from the spec: the `sp1_stark::air::PublicValues` block as used by
`ExecutionRecord::split`; only the four 32-bit little-endian address-bit
arrays that `split` reads and writes are modelled. -/
structure PublicValues where
  previous_init_addr_bits : List Nat
  last_init_addr_bits : List Nat
  previous_finalize_addr_bits : List Nat
  last_finalize_addr_bits : List Nat
deriving DecidableEq, Repr

/-- `PublicValues::default()`: all four bit arrays zero. -/
def PublicValues.empty : PublicValues :=
  { previous_init_addr_bits := List.replicate 32 0,
    last_init_addr_bits := List.replicate 32 0,
    previous_finalize_addr_bits := List.replicate 32 0,
    last_finalize_addr_bits := List.replicate 32 0 }

/-- Modelled from the spec: the `SplitOpts` configuration
`{keccak, sha_extend, sha_compress, deferred, memory}` chunk sizes. -/
structure SplitOpts where
  deferred : Nat
  keccak : Nat
  sha_extend : Nat
  sha_compress : Nat
  memory : Nat
deriving DecidableEq, Repr

/-- The execution record of `record.rs`.  Precompile event payloads are opaque
to `record.rs`, so the fourteen deferrable streams are modelled as `List Nat`
(one `Nat` token per event); the byte-lookup multiset
`HashMap<u32, HashMap<ByteLookupEvent, usize>>` is an association list of
association lists; `nonce_lookup : HashMap<u128, u32>` is an update
function.  `program : Arc<Program>` is an opaque shared handle. -/
structure ExecutionRecord where
  program : Nat
  cpu_events : List CpuEvent
  add_events : List AluEvent
  mul_events : List AluEvent
  sub_events : List AluEvent
  bitwise_events : List AluEvent
  shift_left_events : List AluEvent
  shift_right_events : List AluEvent
  divrem_events : List AluEvent
  lt_events : List AluEvent
  byte_lookups : List (Nat × List (ByteLookupEvent × Nat))
  sha_extend_events : List Nat
  sha_compress_events : List Nat
  keccak_permute_events : List Nat
  ed_add_events : List Nat
  ed_decompress_events : List Nat
  secp256k1_add_events : List Nat
  secp256k1_double_events : List Nat
  bn254_add_events : List Nat
  bn254_double_events : List Nat
  k256_decompress_events : List Nat
  bls12381_add_events : List Nat
  bls12381_double_events : List Nat
  uint256_mul_events : List Nat
  bls12381_decompress_events : List Nat
  memory_initialize_events : List MemoryInitializeFinalizeEvent
  memory_finalize_events : List MemoryInitializeFinalizeEvent
  public_values : PublicValues
  nonce_lookup : Nat → Option Nat

/-- `ExecutionRecord::default()`. -/
def emptyRecord : ExecutionRecord :=
  { program := 0, cpu_events := [], add_events := [], mul_events := [],
    sub_events := [], bitwise_events := [], shift_left_events := [],
    shift_right_events := [], divrem_events := [], lt_events := [],
    byte_lookups := [], sha_extend_events := [], sha_compress_events := [],
    keccak_permute_events := [], ed_add_events := [], ed_decompress_events := [],
    secp256k1_add_events := [], secp256k1_double_events := [],
    bn254_add_events := [], bn254_double_events := [],
    k256_decompress_events := [], bls12381_add_events := [],
    bls12381_double_events := [], uint256_mul_events := [],
    bls12381_decompress_events := [], memory_initialize_events := [],
    memory_finalize_events := [], public_values := PublicValues.empty,
    nonce_lookup := fun _ => none }

/-- Take `k` successive chunks of `n` elements from the front of `l` (the
final chunks come out short or empty if `l` runs out: callers pass the
correct `k`). -/
def chunksExactAux (n : Nat) : Nat → List α → List (List α)
  | 0, _ => []
  | k + 1, l => l.take n :: chunksExactAux n k (l.drop n)

/-- `slice::chunks_exact`: the `len / n` full front chunks of size `n`
(empty when `n = 0`, where the source panics). -/
def chunksExact (n : Nat) (l : List α) : List (List α) :=
  if n = 0 then [] else chunksExactAux n (l.length / n) l

/-- `ChunksExact::remainder`: the `len % n` trailing elements left after the
full chunks. -/
def chunksRemainder (n : Nat) (l : List α) : List α :=
  if n = 0 then l else l.drop (n * (l.length / n))

/-- `slice::chunks`: `⌈len / n⌉` chunks of size `n`, the final one possibly
short (empty when `n = 0`, where the source panics). -/
def chunksOf (n : Nat) (l : List α) : List (List α) :=
  if n = 0 then [] else chunksExactAux n ((l.length + (n - 1)) / n) l

/-- `itertools::EitherOrBoth`. -/
inductive EitherOrBoth (A : Type) (B : Type) where
  | both : A → B → EitherOrBoth A B
  | left : A → EitherOrBoth A B
  | right : B → EitherOrBoth A B
deriving DecidableEq, Repr

/-- `itertools::zip_longest`. -/
def zipLongest : List A → List B → List (EitherOrBoth A B)
  | [], bs => bs.map .right
  | a :: ra, [] => .left a :: zipLongest ra []
  | a :: ra, b :: rb => .both a b :: zipLongest ra rb

/-- A getter/setter/shard-builder triple for one deferrable event stream,
standing for the field name the `split_events!` macro is instantiated at. -/
structure StreamLens where
  get : ExecutionRecord → List Nat
  set : ExecutionRecord → List Nat → ExecutionRecord
  mkShard : Nat → List Nat → ExecutionRecord

/-- One expansion of the `split_events!` macro: take the stream out of the
record, emit the remainder as a leading shard when `exactFlag` is set
(otherwise put it back on the record), then emit the full chunks as shards. -/
def split_events (L : StreamLens) (threshold : Nat) (exactFlag : Bool)
    (r : ExecutionRecord) : List ExecutionRecord × ExecutionRecord :=
  let events := L.get r
  let r1 := L.set r []
  let chunks := chunksExact threshold events
  let rem := chunksRemainder threshold events
  if exactFlag then
    ((if rem.isEmpty then [] else [L.mkShard r1.program rem])
      ++ chunks.map (L.mkShard r1.program), r1)
  else
    (chunks.map (L.mkShard r1.program), L.set r1 rem)

/-- Lens for `keccak_permute_events`. -/
def keccakLens : StreamLens :=
  ⟨fun r => r.keccak_permute_events,
   fun r l => { r with keccak_permute_events := l },
   fun p l => { emptyRecord with program := p, keccak_permute_events := l }⟩

/-- Lens for `secp256k1_add_events`. -/
def secp256k1AddLens : StreamLens :=
  ⟨fun r => r.secp256k1_add_events,
   fun r l => { r with secp256k1_add_events := l },
   fun p l => { emptyRecord with program := p, secp256k1_add_events := l }⟩

/-- Lens for `secp256k1_double_events`. -/
def secp256k1DoubleLens : StreamLens :=
  ⟨fun r => r.secp256k1_double_events,
   fun r l => { r with secp256k1_double_events := l },
   fun p l => { emptyRecord with program := p, secp256k1_double_events := l }⟩

/-- Lens for `bn254_add_events`. -/
def bn254AddLens : StreamLens :=
  ⟨fun r => r.bn254_add_events,
   fun r l => { r with bn254_add_events := l },
   fun p l => { emptyRecord with program := p, bn254_add_events := l }⟩

/-- Lens for `bn254_double_events`. -/
def bn254DoubleLens : StreamLens :=
  ⟨fun r => r.bn254_double_events,
   fun r l => { r with bn254_double_events := l },
   fun p l => { emptyRecord with program := p, bn254_double_events := l }⟩

/-- Lens for `bls12381_add_events`. -/
def bls12381AddLens : StreamLens :=
  ⟨fun r => r.bls12381_add_events,
   fun r l => { r with bls12381_add_events := l },
   fun p l => { emptyRecord with program := p, bls12381_add_events := l }⟩

/-- Lens for `bls12381_double_events`. -/
def bls12381DoubleLens : StreamLens :=
  ⟨fun r => r.bls12381_double_events,
   fun r l => { r with bls12381_double_events := l },
   fun p l => { emptyRecord with program := p, bls12381_double_events := l }⟩

/-- Lens for `sha_extend_events`. -/
def shaExtendLens : StreamLens :=
  ⟨fun r => r.sha_extend_events,
   fun r l => { r with sha_extend_events := l },
   fun p l => { emptyRecord with program := p, sha_extend_events := l }⟩

/-- Lens for `sha_compress_events`. -/
def shaCompressLens : StreamLens :=
  ⟨fun r => r.sha_compress_events,
   fun r l => { r with sha_compress_events := l },
   fun p l => { emptyRecord with program := p, sha_compress_events := l }⟩

/-- Lens for `ed_add_events`. -/
def edAddLens : StreamLens :=
  ⟨fun r => r.ed_add_events,
   fun r l => { r with ed_add_events := l },
   fun p l => { emptyRecord with program := p, ed_add_events := l }⟩

/-- Lens for `ed_decompress_events`. -/
def edDecompressLens : StreamLens :=
  ⟨fun r => r.ed_decompress_events,
   fun r l => { r with ed_decompress_events := l },
   fun p l => { emptyRecord with program := p, ed_decompress_events := l }⟩

/-- Lens for `k256_decompress_events`. -/
def k256DecompressLens : StreamLens :=
  ⟨fun r => r.k256_decompress_events,
   fun r l => { r with k256_decompress_events := l },
   fun p l => { emptyRecord with program := p, k256_decompress_events := l }⟩

/-- Lens for `uint256_mul_events`. -/
def uint256MulLens : StreamLens :=
  ⟨fun r => r.uint256_mul_events,
   fun r l => { r with uint256_mul_events := l },
   fun p l => { emptyRecord with program := p, uint256_mul_events := l }⟩

/-- Lens for `bls12381_decompress_events`. -/
def bls12381DecompressLens : StreamLens :=
  ⟨fun r => r.bls12381_decompress_events,
   fun r l => { r with bls12381_decompress_events := l },
   fun p l => { emptyRecord with program := p, bls12381_decompress_events := l }⟩

/-- `core::array::from_fn(|i| (addr >> i) & 1)`: the 32-bit little-endian bit
expansion of an address. -/
def addrBits (addr : Nat) : List Nat :=
  (List.range 32).map (fun i => (addr >>> i) &&& 1)

/-- Stable insertion into an address-sorted list: `e` goes in front of the
first element whose address is not smaller. -/
def insertByAddr (e : MemoryInitializeFinalizeEvent) :
    List MemoryInitializeFinalizeEvent → List MemoryInitializeFinalizeEvent
  | [] => [e]
  | x :: xs => if x.addr < e.addr then x :: insertByAddr e xs else e :: x :: xs

/-- `sort_by_key(|event| event.addr)`: a stable sort by address (insertion
sort, behaviourally equal to the source's stable sort). -/
def sortByAddr : List MemoryInitializeFinalizeEvent →
    List MemoryInitializeFinalizeEvent
  | [] => []
  | x :: xs => insertByAddr x (sortByAddr xs)

/-- The either-or-both match in `split`: a shard may have init-only,
finalize-only, or both chunks. -/
def eobChunks
    (x : EitherOrBoth (List MemoryInitializeFinalizeEvent)
          (List MemoryInitializeFinalizeEvent)) :
    List MemoryInitializeFinalizeEvent × List MemoryInitializeFinalizeEvent :=
  match x with
  | .both a b => (a, b)
  | .left a => (a, [])
  | .right b => ([], b)

/-- The body of the `if last` block of `split`: walk the zipped memory
chunks, threading `init_addr_bits`/`finalize_addr_bits` and recording the
pre-chunk bits as `previous_*` and the post-chunk bits as `last_*`. -/
def buildMemShards (prog : Nat) :
    List (EitherOrBoth (List MemoryInitializeFinalizeEvent)
           (List MemoryInitializeFinalizeEvent)) →
    List Nat → List Nat → List ExecutionRecord
  | [], _, _ => []
  | x :: rest, initBits, finBits =>
    let ic := (eobChunks x).1
    let fc := (eobChunks x).2
    let initBitsNext := match ic.getLast? with
      | some e => addrBits e.addr
      | none => initBits
    let finBitsNext := match fc.getLast? with
      | some e => addrBits e.addr
      | none => finBits
    { emptyRecord with
        program := prog,
        memory_initialize_events := ic,
        memory_finalize_events := fc,
        public_values :=
          { previous_init_addr_bits := initBits,
            last_init_addr_bits := initBitsNext,
            previous_finalize_addr_bits := finBits,
            last_finalize_addr_bits := finBitsNext } }
      :: buildMemShards prog rest initBitsNext finBitsNext

/-- The sequence of memory shards `split(last=true, opts)` emits: sort both
memory event lists by address, chunk them by `opts.memory`, zip the chunk
sequences and stitch the address bits (starting from the all-zero arrays). -/
def memoryShards (r : ExecutionRecord) (opts : SplitOpts) : List ExecutionRecord :=
  let inits := sortByAddr r.memory_initialize_events
  let fins := sortByAddr r.memory_finalize_events
  buildMemShards r.program (zipLongest (chunksOf opts.memory inits) (chunksOf opts.memory fins))
    (List.replicate 32 0) (List.replicate 32 0)

/-- `ExecutionRecord::split`: the ordered shard list together with what
remains on the record (whose memory event lists end up sorted when `last`). -/
def split (r : ExecutionRecord) (last : Bool) (opts : SplitOpts) :
    List ExecutionRecord × ExecutionRecord :=
  let p1 := split_events keccakLens opts.keccak last r
  let p2 := split_events secp256k1AddLens opts.deferred last p1.2
  let p3 := split_events secp256k1DoubleLens opts.deferred last p2.2
  let p4 := split_events bn254AddLens opts.deferred last p3.2
  let p5 := split_events bn254DoubleLens opts.deferred last p4.2
  let p6 := split_events bls12381AddLens opts.deferred last p5.2
  let p7 := split_events bls12381DoubleLens opts.deferred last p6.2
  let p8 := split_events shaExtendLens opts.sha_extend last p7.2
  let p9 := split_events shaCompressLens opts.sha_compress last p8.2
  let p10 := split_events edAddLens opts.deferred last p9.2
  let p11 := split_events edDecompressLens opts.deferred last p10.2
  let p12 := split_events k256DecompressLens opts.deferred last p11.2
  let p13 := split_events uint256MulLens opts.deferred last p12.2
  let p14 := split_events bls12381DecompressLens opts.deferred last p13.2
  let streamShards :=
    p1.1 ++ p2.1 ++ p3.1 ++ p4.1 ++ p5.1 ++ p6.1 ++ p7.1 ++ p8.1 ++ p9.1
      ++ p10.1 ++ p11.1 ++ p12.1 ++ p13.1 ++ p14.1
  if last then
    (streamShards ++ memoryShards p14.2 opts,
     { p14.2 with
        memory_initialize_events := sortByAddr p14.2.memory_initialize_events,
        memory_finalize_events := sortByAddr p14.2.memory_finalize_events })
  else
    (streamShards, p14.2)

/-- `HashMap::insert` on the nonce map (overwriting). -/
def mInsert (m : Nat → Option Nat) (k v : Nat) : Nat → Option Nat :=
  fun x => if x = k then some v else m x

/-- One `iter().enumerate().for_each(insert)` pass of `register_nonces`:
event `i` of `es` is inserted with nonce `start + i`. -/
def insertEnum (start : Nat) (es : List AluEvent) (m : Nat → Option Nat) :
    Nat → Option Nat :=
  match es with
  | [] => m
  | e :: rest => insertEnum (start + 1) rest (mInsert m e.lookup_id start)

/-- `ExecutionRecord::register_nonces`: add gets positions `0..`, sub
continues at `add_events.len()`, and the six remaining streams each restart
at 0. -/
def register_nonces (r : ExecutionRecord) : ExecutionRecord :=
  { r with nonce_lookup :=
      (insertEnum 0 r.lt_events
        (insertEnum 0 r.divrem_events
          (insertEnum 0 r.shift_right_events
            (insertEnum 0 r.shift_left_events
              (insertEnum 0 r.bitwise_events
                (insertEnum 0 r.mul_events
                  (insertEnum r.add_events.length r.sub_events
                    (insertEnum 0 r.add_events r.nonce_lookup)))))))) }

/-- The 25 unconditional `stats` entries, in insertion order. -/
def statsBase (r : ExecutionRecord) : List (String × Nat) :=
  [("cpu_events", r.cpu_events.length),
   ("add_events", r.add_events.length),
   ("mul_events", r.mul_events.length),
   ("sub_events", r.sub_events.length),
   ("bitwise_events", r.bitwise_events.length),
   ("shift_left_events", r.shift_left_events.length),
   ("shift_right_events", r.shift_right_events.length),
   ("divrem_events", r.divrem_events.length),
   ("lt_events", r.lt_events.length),
   ("sha_extend_events", r.sha_extend_events.length),
   ("sha_compress_events", r.sha_compress_events.length),
   ("keccak_permute_events", r.keccak_permute_events.length),
   ("ed_add_events", r.ed_add_events.length),
   ("ed_decompress_events", r.ed_decompress_events.length),
   ("secp256k1_add_events", r.secp256k1_add_events.length),
   ("secp256k1_double_events", r.secp256k1_double_events.length),
   ("bn254_add_events", r.bn254_add_events.length),
   ("bn254_double_events", r.bn254_double_events.length),
   ("k256_decompress_events", r.k256_decompress_events.length),
   ("bls12381_add_events", r.bls12381_add_events.length),
   ("bls12381_double_events", r.bls12381_double_events.length),
   ("uint256_mul_events", r.uint256_mul_events.length),
   ("bls12381_decompress_events", r.bls12381_decompress_events.length),
   ("memory_initialize_events", r.memory_initialize_events.length),
   ("memory_finalize_events", r.memory_finalize_events.length)]

/-- `self.byte_lookups.get(&shard).map_or(0, HashMap::len)`: the number of
distinct byte-lookup keys recorded for `shard`. -/
def byteLookupsLen (r : ExecutionRecord) (shard : Nat) : Nat :=
  match r.byte_lookups.lookup shard with
  | some m => m.length
  | none => 0

/-- The conditional `byte_lookups` entry of `stats`: present only when
`cpu_events` is non-empty, and counting only the shard of the first CPU
event. -/
def statsByte (r : ExecutionRecord) : List (String × Nat) :=
  match r.cpu_events with
  | [] => []
  | e :: _ => [("byte_lookups", byteLookupsLen r e.shard)]

/-- `ExecutionRecord::stats`: insert all entries, then retain the non-zero
counts. -/
def stats (r : ExecutionRecord) : List (String × Nat) :=
  (statsBase r ++ statsByte r).filter (fun p => p.2 != 0)

end EXE

namespace AIR

/-- The byte size of `PublicValues<Word<u8>, u8>`: 8 words of 4 bytes, 8
digest bytes, and 8 scalar bytes (`SP1_PROOF_NUM_PV_ELTS`). -/
def SP1_PROOF_NUM_PV_ELTS : Nat := 48

/-- Modelled from the spec: `Word<F>` is the 4-element little-endian byte
expansion of a 32-bit word (the `Word` type lives outside the given
sources); the field `F` is modelled as `Nat` carrying canonical values. -/
def wordLE (w : Nat) : List Nat :=
  [w % 256, w / 256 % 256, w / 65536 % 256, w / 16777216 % 256]

/-- The ground form `PublicValues<u32, u32>` of `public_values.rs`: the 11
declared fields, in declaration order. -/
structure PublicValues where
  committed_value_digest : Fin 8 → Nat
  deferred_proofs_digest : Fin 8 → Nat
  start_pc : Nat
  next_pc : Nat
  exit_code : Nat
  shard : Nat
  previous_init_addr : Nat
  last_init_addr : Nat
  previous_finalize_addr : Nat
  last_finalize_addr : Nat

/-- The field-element serialization of the block (`PublicValues<Word<F>, F>`
laid out field by field, `repr(C)`): 8 word expansions, 8 digest elements,
then the 8 scalars. -/
def serializePV (pv : PublicValues) : List Nat :=
  ((List.finRange 8).map (fun i => wordLE (pv.committed_value_digest i))).flatten
    ++ (List.finRange 8).map (fun i => pv.deferred_proofs_digest i)
    ++ [pv.start_pc, pv.next_pc, pv.exit_code, pv.shard,
        pv.previous_init_addr, pv.last_init_addr,
        pv.previous_finalize_addr, pv.last_finalize_addr]

/-- `PublicValues::to_vec`: allocate `PROOF_MAX_NUM_PVS` zeros and overwrite
the leading `size_of` elements with the serialized block.  The constant
`PROOF_MAX_NUM_PVS` is declared in `crate::stark`, outside the given
sources, so it is kept as the parameter `maxNumPVs` (the source requires it
to be at least the serialized length). -/
def to_vec (maxNumPVs : Nat) (pv : PublicValues) : List Nat :=
  let s := serializePV pv
  s ++ (List.replicate maxNumPVs 0).drop s.length

end AIR

namespace RT

/-- Stated from the amended claim: the expected destination value of a shift
instruction whose shift amount `c` is below 32 (left shifts discard the
overflowing bits, `SRA`/`SRAI` shift the signed interpretation). -/
def shiftSpec (op : Opcode) (b c : Nat) : Nat :=
  match op with
  | .SLL | .SLLI => (b <<< c) % U32MOD
  | .SRL | .SRLI => b >>> c
  | .SRA | .SRAI => toU32 (Int.fdiv (toI32 b) (2 ^ c))
  | _ => 0

/-- The divide-by-zero scenario of the spec:
`addi x1,x0,7; addi x2,x0,0; div x3,x1,x2; rem x4,x1,x2`. -/
def divZeroProgram : List Instruction :=
  [ ⟨.ADDI, 1, 0, 7⟩, ⟨.ADDI, 2, 0, 0⟩, ⟨.DIV, 3, 1, 2⟩, ⟨.REM, 4, 1, 2⟩ ]

/-- A program whose single instruction names x0 as its destination:
`addi x0,x0,7`. -/
def x0WriteProgram : List Instruction :=
  [ ⟨.ADDI, 0, 0, 7⟩ ]

/-- A single jump: `jal x1, 8` at address 0. -/
def jalProgram : List Instruction :=
  [ ⟨.JAL, 1, 8, 0⟩ ]

/-- A shift with amount 32: `addi x1,x0,1; addi x2,x0,32; sll x3,x1,x2`. -/
def shiftOverProgram : List Instruction :=
  [ ⟨.ADDI, 1, 0, 1⟩, ⟨.ADDI, 2, 0, 32⟩, ⟨.SLL, 3, 1, 2⟩ ]

end RT

namespace EXE

/-- The `lookup_id`s of an ALU event stream. -/
def aluIds (es : List AluEvent) : List Nat :=
  es.map (fun e => e.lookup_id)

/-- All `lookup_id`s of the eight ALU streams, in the order
`register_nonces` processes the streams. -/
def allNonceIds (r : ExecutionRecord) : List Nat :=
  aluIds r.add_events ++ (aluIds r.sub_events ++ (aluIds r.mul_events
    ++ (aluIds r.bitwise_events ++ (aluIds r.shift_left_events
    ++ (aluIds r.shift_right_events ++ (aluIds r.divrem_events
    ++ aluIds r.lt_events))))))

/-- Chunk sizes used by the concrete split scenarios (keccak chunk 3). -/
def splitOptsA : SplitOpts := ⟨2, 3, 2, 2, 2⟩

/-- A deferred record with 3·3 + 2 = 11 keccak events (tokens 0..10). -/
def keccakRecordA : ExecutionRecord :=
  { emptyRecord with keccak_permute_events := [0, 1, 2, 3, 4, 5, 6, 7, 8, 9, 10] }

/-- Chunk sizes with memory chunk 1. -/
def memOptsA : SplitOpts := ⟨2, 3, 2, 2, 1⟩

/-- A memory initialize/finalize event at the given address. -/
def mkMemEvent (a : Nat) : MemoryInitializeFinalizeEvent :=
  ⟨a, 0, 0, 0, true⟩

/-- A record with two initialize events (addresses 9, 5) and one finalize
event (address 7): two memory shards at chunk size 1. -/
def memRecordA : ExecutionRecord :=
  { emptyRecord with
      memory_initialize_events := [mkMemEvent 9, mkMemEvent 5],
      memory_finalize_events := [mkMemEvent 7] }

/-- An ALU event carrying only a lookup id. -/
def mkAluEvent (id : Nat) : AluEvent :=
  ⟨id, 0, 0, 0, 0, 0, 0⟩

/-- A record with one ADD event (id 10) and one SUB event (id 11). -/
def nonceRecordA : ExecutionRecord :=
  { emptyRecord with
      add_events := [mkAluEvent 10],
      sub_events := [mkAluEvent 11] }

/-- A record populating all eight ALU streams with distinct lookup ids. -/
def nonceRecordB : ExecutionRecord :=
  { emptyRecord with
      add_events := [mkAluEvent 1, mkAluEvent 2],
      sub_events := [mkAluEvent 3],
      mul_events := [mkAluEvent 4],
      bitwise_events := [mkAluEvent 5],
      shift_left_events := [mkAluEvent 6],
      shift_right_events := [mkAluEvent 7],
      divrem_events := [mkAluEvent 8],
      lt_events := [mkAluEvent 9] }

/-- A record with no CPU events but a non-empty byte-lookup multiset. -/
def byteRecordA : ExecutionRecord :=
  { emptyRecord with byte_lookups := [(0, [(⟨0, 0, 0, 0, 0⟩, 3)])] }

/-- A record whose first CPU event is in shard 0, with two distinct lookup
kinds in shard 0 (multiplicities 3 and 5) and one in shard 1. -/
def byteRecordB : ExecutionRecord :=
  { emptyRecord with
      cpu_events := [⟨0, 0, 0⟩],
      byte_lookups :=
        [(0, [(⟨0, 0, 0, 0, 0⟩, 3), (⟨0, 1, 0, 0, 0⟩, 5)]),
         (1, [(⟨1, 0, 0, 0, 0⟩, 2)])] }

end EXE

namespace AIR

/-- A sample ground public-values block with distinguishable fields. -/
def pvA : PublicValues :=
  { committed_value_digest := fun i => 256 + i.val,
    deferred_proofs_digest := fun i => i.val,
    start_pc := 1, next_pc := 2, exit_code := 3, shard := 4,
    previous_init_addr := 5, last_init_addr := 6,
    previous_finalize_addr := 7, last_finalize_addr := 8 }

end AIR

/-!
Theorems.  Each claim of the specification is settled below; helper lemmas
come first, the claim theorems afterwards.
-/

/-- C1.  The claim says a DIV/REM with zero divisor does not fail and follows
the RISC-V total-division rules (`div(x,0) = -1`, `rem(x,0) = x`); on the
spec scenario `addi x1,x0,7; addi x2,x0,0; div x3,x1,x2; rem x4,x1,x2` the
source instead panics: `wrapping_div`/`wrapping_rem` panic on a zero
divisor, so the run aborts rather than writing 0xFFFFFFFF and 7. -/
theorem C1_code_divide_by_zero_panics :
    RT.run 10 RT.divZeroProgram = RT.Outcome.panicked := by
  rfl

/-- C2.  The claim says the stored value of x0 (read back through the
memory-aliased register file) is 0 at every cycle boundary; after
`addi x0,x0,7` the source's register file instead returns 7: the
`registers[X0] = 0` reset is executed once before the loop and writes an
array the `rr`/`wr` memory alias never consults. -/
theorem C2_code_x0_retains_written_value :
    RT.runRegRead 5 RT.x0WriteProgram 0 = some 7 ∧ (7 : Nat) ≠ 0 := by
  exact ⟨rfl, by decide⟩

/-- C3.  The claim says reading x2 after initialization yields
`MEM_SIZE = 8388608`; the source writes the sentinel into the unused
`registers` array while `rr` reads the (still empty) memory map, so the
read yields 0 — for every program. -/
theorem C3_code_x2_reads_zero_after_init :
    ∀ code : List RT.Instruction,
      (RT.rr (RT.runInit (RT.Runtime.new code)) 2).1 = 0 ∧
      (RT.rr (RT.runInit (RT.Runtime.new code)) 2).1 ≠ RT.MEM_SIZE := by
  intro code
  refine ⟨rfl, ?_⟩
  show (0 : Nat) ≠ RT.MEM_SIZE
  decide

/-- C4 counterexample.  The claim says JAL writes `pc + 4` (the jump's own
address plus 4) to rd; for `jal x1, 8` at address 0 the source writes 8,
not 4, because `execute` runs after the optimistic `pc += 4`. -/
theorem C4_cex_jal_writes_pc_plus_8 :
    RT.runMem 5 RT.jalProgram (RT.REG_BASE + 1) = some (some 8) ∧
    (8 : Nat) ≠ 0 + 4 := by
  exact ⟨rfl, by decide⟩

/-- C8 counterexample.  The claim says a shift by an amount ≥ 32 succeeds
with the amount reduced mod 32; on
`addi x1,x0,1; addi x2,x0,32; sll x3,x1,x2` the source's unmasked `<<`
overflows and the run panics instead of writing `1 <<< (32 % 32) = 1`. -/
theorem C8_cex_shift_amount_32_panics :
    RT.run 9 RT.shiftOverProgram = RT.Outcome.panicked ∧
    RT.runRegRead 9 RT.shiftOverProgram 3 = none := by
  exact ⟨rfl, rfl⟩

/-- C5 counterexample.  The claim says concatenating the keccak streams of
the shards of `split(last=true)` restores the pre-split stream, the partial
shard coming last; with 11 = 3·3+2 events and chunk 3 the source emits the
partial chunk first, so the concatenation is the rotation
`[9,10,0,…,8]` and the per-shard sizes are 2,3,3,3. -/
theorem C5_cex_split_concat_reordered :
    ((EXE.split EXE.keccakRecordA true EXE.splitOptsA).1.map
        (fun s => s.keccak_permute_events))
      = [[9, 10], [0, 1, 2], [3, 4, 5], [6, 7, 8]] ∧
    (((EXE.split EXE.keccakRecordA true EXE.splitOptsA).1.map
        (fun s => s.keccak_permute_events)).flatten
      ≠ EXE.keccakRecordA.keccak_permute_events) := by
  exact ⟨rfl, by decide⟩

/-- C6 counterexample.  The claim says the nonces assigned to each single
ALU stream form `{0, …, len-1}`; with one ADD event (id 10) and one SUB
event (id 11) the SUB stream's single nonce is 1, not 0, because SUB
nonces continue past `add_events.len()`. -/
theorem C6_cex_sub_nonces_offset :
    ((EXE.register_nonces EXE.nonceRecordA).nonce_lookup 11 = some 1) ∧
    some 1 ≠ some (0 : Nat) := by
  exact ⟨rfl, by decide⟩

/-- Helper: a lookup misses when no key of the list equals the looked-up
key. -/
theorem lookup_keys_ne {l : List (String × Nat)} {k : String}
    (h : ∀ x ∈ l, x.1 ≠ k) : l.lookup k = none := by
  induction l with
  | nil => rfl
  | cons a t ih =>
    obtain ⟨a1, a2⟩ := a
    have ha : a1 ≠ k := h (a1, a2) (by simp)
    have hb : (k == a1) = false := beq_eq_false_iff_ne.mpr (Ne.symm ha)
    simp only [List.lookup, hb]
    exact ih (fun x hx => h x (by simp [hx]))

/-- Helper: a lookup skips a prefix none of whose keys match. -/
theorem lookup_append_left_none {l1 l2 : List (String × Nat)} {k : String}
    (h : ∀ x ∈ l1, x.1 ≠ k) : (l1 ++ l2).lookup k = l2.lookup k := by
  induction l1 with
  | nil => rfl
  | cons a t ih =>
    obtain ⟨a1, a2⟩ := a
    have ha : a1 ≠ k := h (a1, a2) (by simp)
    have hb : (k == a1) = false := beq_eq_false_iff_ne.mpr (Ne.symm ha)
    simp only [List.cons_append, List.lookup, hb]
    exact ih (fun x hx => h x (by simp [hx]))

/-- Helper: none of the 25 unconditional `stats` keys is `byte_lookups`. -/
theorem statsBase_keys_ne (r : EXE.ExecutionRecord) :
    ∀ x ∈ EXE.statsBase r, x.1 ≠ "byte_lookups" := by
  intro x hx
  have hk : x.1 ∈ (EXE.statsBase r).map Prod.fst := List.mem_map_of_mem _ hx
  have he : (EXE.statsBase r).map Prod.fst =
      ["cpu_events", "add_events", "mul_events", "sub_events",
       "bitwise_events", "shift_left_events", "shift_right_events",
       "divrem_events", "lt_events", "sha_extend_events",
       "sha_compress_events", "keccak_permute_events", "ed_add_events",
       "ed_decompress_events", "secp256k1_add_events",
       "secp256k1_double_events", "bn254_add_events", "bn254_double_events",
       "k256_decompress_events", "bls12381_add_events",
       "bls12381_double_events", "uint256_mul_events",
       "bls12381_decompress_events", "memory_initialize_events",
       "memory_finalize_events"] := rfl
  rw [he] at hk
  intro hcontra
  rw [hcontra] at hk
  revert hk
  decide

/-- C10.  `stats` inserts a `byte_lookups` entry only when `cpu_events` is
non-empty (so an empty record reports none even with a non-empty multiset),
and the count it inserts is the number of distinct lookup kinds recorded
for the shard of the first CPU event only (dropped again by the non-zero
retention when that count is 0). -/
theorem C10_stats_byte_lookups_entry (r : EXE.ExecutionRecord) :
    (r.cpu_events = [] → (EXE.stats r).lookup "byte_lookups" = none) ∧
    (∀ e rest, r.cpu_events = e :: rest →
      (EXE.stats r).lookup "byte_lookups" =
        if EXE.byteLookupsLen r e.shard = 0 then none
        else some (EXE.byteLookupsLen r e.shard)) := by
  constructor
  · intro hc
    unfold EXE.stats EXE.statsByte
    rw [hc]
    simp only [List.append_nil]
    exact lookup_keys_ne (fun x hx => statsBase_keys_ne r x (List.mem_of_mem_filter hx))
  · intro e rest hc
    unfold EXE.stats EXE.statsByte
    rw [hc]
    rw [List.filter_append]
    rw [lookup_append_left_none
      (fun x hx => statsBase_keys_ne r x (List.mem_of_mem_filter hx))]
    by_cases hn : EXE.byteLookupsLen r e.shard = 0
    · have hb : (EXE.byteLookupsLen r e.shard != 0) = false := by simpa using hn
      simp [List.filter, hb, hn, List.lookup]
    · have hb : (EXE.byteLookupsLen r e.shard != 0) = true := by simpa using hn
      simp [List.filter, hb, hn, List.lookup]

/-- C10 witness: a record with no CPU events and a non-empty byte-lookup
multiset reports no `byte_lookups` entry, and a record whose first CPU
event is in shard 0 reports the two distinct kinds of shard 0 only. -/
theorem C10_witness :
    (EXE.stats EXE.byteRecordA).lookup "byte_lookups" = none ∧
    (EXE.stats EXE.byteRecordB).lookup "byte_lookups" = some 2 := by
  constructor
  · exact (C10_stats_byte_lookups_entry EXE.byteRecordA).1 rfl
  · have h := (C10_stats_byte_lookups_entry EXE.byteRecordB).2 ⟨0, 0, 0⟩ [] rfl
    rw [h]
    decide

/-- Helper: the serialized public-values block has the fixed length 48. -/
theorem serializePV_len (pv : AIR.PublicValues) :
    (AIR.serializePV pv).length = AIR.SP1_PROOF_NUM_PV_ELTS := rfl

/-- C9.  `to_vec` returns exactly `PROOF_MAX_NUM_PVS` elements: the
serialized 48-element block followed by zero padding (the constant itself
lives outside the given sources and is kept as the parameter
`maxNumPVs ≥ 48`). -/
theorem C9_to_vec_padded_length (pv : AIR.PublicValues) (maxNumPVs : Nat)
    (h : AIR.SP1_PROOF_NUM_PV_ELTS ≤ maxNumPVs) :
    (AIR.to_vec maxNumPVs pv).length = maxNumPVs ∧
    AIR.to_vec maxNumPVs pv =
      AIR.serializePV pv ++
        List.replicate (maxNumPVs - AIR.SP1_PROOF_NUM_PV_ELTS) 0 := by
  have h48 : (AIR.serializePV pv).length = 48 := serializePV_len pv
  have hsplit : maxNumPVs = 48 + (maxNumPVs - 48) := by
    unfold AIR.SP1_PROOF_NUM_PV_ELTS at h
    omega
  constructor
  · unfold AIR.to_vec
    simp only [List.length_append, List.length_drop, List.length_replicate, h48]
    unfold AIR.SP1_PROOF_NUM_PV_ELTS at h
    omega
  · unfold AIR.to_vec
    simp only [h48]
    congr 1
    rw [List.drop_replicate]
    rfl

/-- C9 witness: at `maxNumPVs = 53` the vector has 53 elements, the block
followed by 5 zeros. -/
theorem C9_witness :
    AIR.SP1_PROOF_NUM_PV_ELTS ≤ 53 ∧
    (AIR.to_vec 53 AIR.pvA).length = 53 ∧
    AIR.to_vec 53 AIR.pvA =
      AIR.serializePV AIR.pvA ++
        List.replicate (53 - AIR.SP1_PROOF_NUM_PV_ELTS) 0 :=
  ⟨by decide, C9_to_vec_padded_length AIR.pvA 53 (by decide)⟩

/-- Helper: the head shard built by the memory walk records the incoming
address bits as its previous bits. -/
theorem buildMemShards_head (p : Nat)
    (x : EXE.EitherOrBoth (List EXE.MemoryInitializeFinalizeEvent)
          (List EXE.MemoryInitializeFinalizeEvent))
    (L : List (EXE.EitherOrBoth (List EXE.MemoryInitializeFinalizeEvent)
          (List EXE.MemoryInitializeFinalizeEvent)))
    (ib fb : List Nat) :
    (((EXE.buildMemShards p (x :: L) ib fb).getD 0
        EXE.emptyRecord).public_values.previous_init_addr_bits = ib) ∧
    (((EXE.buildMemShards p (x :: L) ib fb).getD 0
        EXE.emptyRecord).public_values.previous_finalize_addr_bits = fb) := by
  constructor <;> rfl

/-- Helper: consecutive shards built by the memory walk are stitched — the
bits threaded out of one chunk are recorded as the previous bits of the
next shard. -/
theorem buildMemShards_chain (p : Nat) :
    ∀ (L : List (EXE.EitherOrBoth (List EXE.MemoryInitializeFinalizeEvent)
          (List EXE.MemoryInitializeFinalizeEvent)))
      (ib fb : List Nat) (k : Nat),
      k + 1 < (EXE.buildMemShards p L ib fb).length →
      (((EXE.buildMemShards p L ib fb).getD (k + 1)
          EXE.emptyRecord).public_values.previous_init_addr_bits
        = ((EXE.buildMemShards p L ib fb).getD k
          EXE.emptyRecord).public_values.last_init_addr_bits) ∧
      (((EXE.buildMemShards p L ib fb).getD (k + 1)
          EXE.emptyRecord).public_values.previous_finalize_addr_bits
        = ((EXE.buildMemShards p L ib fb).getD k
          EXE.emptyRecord).public_values.last_finalize_addr_bits) := by
  intro L
  induction L with
  | nil => intro ib fb k hk; simp [EXE.buildMemShards] at hk
  | cons x L ih =>
    intro ib fb k hk
    match k with
    | 0 =>
      cases L with
      | nil => simp [EXE.buildMemShards] at hk
      | cons y L2 =>
        constructor <;> rfl
    | k + 1 =>
      have hk2 : k + 1 <
          (EXE.buildMemShards p L
            (match (EXE.eobChunks x).1.getLast? with
             | some e => EXE.addrBits e.addr
             | none => ib)
            (match (EXE.eobChunks x).2.getLast? with
             | some e => EXE.addrBits e.addr
             | none => fb)).length := by
        simp [EXE.buildMemShards] at hk
        simpa [EXE.buildMemShards] using hk
      have := ih _ _ (k := k) hk2
      simpa [EXE.buildMemShards, List.getD_cons_succ] using this

/-- C7.  For the memory shards emitted by `split(last=true, opts)` (built by
`memoryShards`, the trailing segment of `split`'s output), each shard's
`previous_*_addr_bits` equal the preceding shard's `last_*_addr_bits`, and
the first shard's previous bits are all zero. -/
theorem C7_memory_shard_stitching (r : EXE.ExecutionRecord)
    (opts : EXE.SplitOpts) (hm : 0 < opts.memory) :
    (((EXE.memoryShards r opts).getD 0
        EXE.emptyRecord).public_values.previous_init_addr_bits
      = List.replicate 32 0) ∧
    (((EXE.memoryShards r opts).getD 0
        EXE.emptyRecord).public_values.previous_finalize_addr_bits
      = List.replicate 32 0) ∧
    (∀ k, k + 1 < (EXE.memoryShards r opts).length →
      (((EXE.memoryShards r opts).getD (k + 1)
          EXE.emptyRecord).public_values.previous_init_addr_bits
        = ((EXE.memoryShards r opts).getD k
          EXE.emptyRecord).public_values.last_init_addr_bits) ∧
      (((EXE.memoryShards r opts).getD (k + 1)
          EXE.emptyRecord).public_values.previous_finalize_addr_bits
        = ((EXE.memoryShards r opts).getD k
          EXE.emptyRecord).public_values.last_finalize_addr_bits)) := by
  simp only [EXE.memoryShards]
  generalize EXE.zipLongest
      (EXE.chunksOf opts.memory (EXE.sortByAddr r.memory_initialize_events))
      (EXE.chunksOf opts.memory (EXE.sortByAddr r.memory_finalize_events)) = L
  refine ⟨?_, ?_, ?_⟩
  · cases L with
    | nil => rfl
    | cons x L2 => exact (buildMemShards_head r.program x L2 _ _).1
  · cases L with
    | nil => rfl
    | cons x L2 => exact (buildMemShards_head r.program x L2 _ _).2
  · intro k hk
    exact buildMemShards_chain r.program L _ _ k hk

/-- C7 witness: on the record with initialize addresses {9, 5}, finalize
address {7} and memory chunk 1, the second of the two memory shards is
stitched to the first. -/
theorem C7_witness :
    (0 : Nat) + 1 < (EXE.memoryShards EXE.memRecordA EXE.memOptsA).length ∧
    ((EXE.memoryShards EXE.memRecordA EXE.memOptsA).getD 1
        EXE.emptyRecord).public_values.previous_init_addr_bits
      = ((EXE.memoryShards EXE.memRecordA EXE.memOptsA).getD 0
        EXE.emptyRecord).public_values.last_init_addr_bits :=
  ⟨by decide,
   ((C7_memory_shard_stitching EXE.memRecordA EXE.memOptsA (by decide)).2.2 0
     (by decide)).1⟩

/-- C4 amended.  For a fetched JAL or JALR instruction, one loop iteration
stores the already-advanced pc plus 4 — the jump instruction's own address
plus 8 — into rd (through the register alias). -/
theorem C4_amended_jump_link_value (s : RT.Runtime) (i : RT.Instruction)
    (hf : RT.fetch s = some i) (hpc : s.pc + 8 < RT.U32MOD) :
    (i.opcode = RT.Opcode.JAL → i.a < 32 →
      (RT.step s).map (fun t => RT.regVal t i.a) = some (s.pc + 8)) ∧
    (i.opcode = RT.Opcode.JALR → i.a < 32 → i.b < 32 →
      (RT.step s).map (fun t => RT.regVal t i.a) = some (s.pc + 8)) := by
  have hpc2 : s.pc + 4 + 4 < RT.U32MOD := by omega
  constructor
  · intro hop ha
    simp [RT.step, hf, RT.execute, hop, RT.Instruction.jType, RT.regFromU32,
      ha, hpc2, RT.wr, RT.wm, RT.emitAlu, RT.regVal]
  · intro hop ha hb
    simp [RT.step, hf, RT.execute, hop, RT.Instruction.iType, RT.regFromU32,
      ha, hb, hpc2, RT.wr, RT.wm, RT.rr, RT.rm, RT.emitAlu, RT.regVal]

/-- C4 amended witness: for `jal x1, 8` fetched at address 0, the stored
link value is 0 + 8. -/
theorem C4_amended_witness :
    (RT.step (RT.runInit (RT.Runtime.new RT.jalProgram))).map
        (fun t => RT.regVal t 1) = some (0 + 8) :=
  (C4_amended_jump_link_value (RT.runInit (RT.Runtime.new RT.jalProgram))
      ⟨RT.Opcode.JAL, 1, 8, 0⟩ rfl (by decide)).1 rfl (by decide)

set_option maxHeartbeats 1600000 in
/-- C8 amended.  For a fetched shift instruction: when the shift-amount
operand is below 32, one loop iteration succeeds and rd receives the
operand `b` shifted accordingly; when it is 32 or more, the unmasked Rust
shift overflows and the iteration panics. -/
theorem C8_amended_shift_semantics (s : RT.Runtime) (i : RT.Instruction)
    (hf : RT.fetch s = some i) :
    ((i.opcode = RT.Opcode.SLL ∨ i.opcode = RT.Opcode.SRL ∨
        i.opcode = RT.Opcode.SRA) →
      i.a < 32 → i.b < 32 → i.c < 32 →
      ((RT.regVal s i.c < 32 →
        (RT.step s).map (fun t => RT.regVal t i.a) =
          some (RT.shiftSpec i.opcode (RT.regVal s i.b) (RT.regVal s i.c))) ∧
       (32 ≤ RT.regVal s i.c → RT.step s = none))) ∧
    ((i.opcode = RT.Opcode.SLLI ∨ i.opcode = RT.Opcode.SRLI ∨
        i.opcode = RT.Opcode.SRAI) →
      i.a < 32 → i.b < 32 →
      ((i.c < 32 →
        (RT.step s).map (fun t => RT.regVal t i.a) =
          some (RT.shiftSpec i.opcode (RT.regVal s i.b) i.c)) ∧
       (32 ≤ i.c → RT.step s = none))) := by
  obtain ⟨op, ia, ib, ic⟩ := i
  constructor
  · intro hop ha hb hc
    constructor
    · intro hcv
      simp only [RT.regVal] at hcv
      rcases hop with hop | hop | hop
      · have h2 : op = RT.Opcode.SLL := hop
        subst h2
        simp [RT.step, hf, RT.execute, RT.Instruction.rType, RT.regFromU32,
          ha, hb, hc, RT.rr, RT.rm, RT.shl32, RT.shiftSpec, RT.wr, RT.wm,
          RT.emitAlu, hcv, RT.regVal]
      · have h2 : op = RT.Opcode.SRL := hop
        subst h2
        simp [RT.step, hf, RT.execute, RT.Instruction.rType, RT.regFromU32,
          ha, hb, hc, RT.rr, RT.rm, RT.shr32, RT.shiftSpec, RT.wr, RT.wm,
          RT.emitAlu, hcv, RT.regVal]
      · have h2 : op = RT.Opcode.SRA := hop
        subst h2
        simp [RT.step, hf, RT.execute, RT.Instruction.rType, RT.regFromU32,
          ha, hb, hc, RT.rr, RT.rm, RT.sra32, RT.shiftSpec, RT.wr, RT.wm,
          RT.emitAlu, hcv, RT.regVal]
    · intro hcv
      have hnc : ¬ (RT.regVal s ic < 32) := Nat.not_lt.mpr hcv
      simp only [RT.regVal] at hnc
      rcases hop with hop | hop | hop
      · have h2 : op = RT.Opcode.SLL := hop
        subst h2
        simp [RT.step, hf, RT.execute, RT.Instruction.rType, RT.regFromU32,
          ha, hb, hc, RT.rr, RT.rm, RT.shl32, RT.wr, RT.wm, RT.emitAlu, hnc]
      · have h2 : op = RT.Opcode.SRL := hop
        subst h2
        simp [RT.step, hf, RT.execute, RT.Instruction.rType, RT.regFromU32,
          ha, hb, hc, RT.rr, RT.rm, RT.shr32, RT.wr, RT.wm, RT.emitAlu, hnc]
      · have h2 : op = RT.Opcode.SRA := hop
        subst h2
        simp [RT.step, hf, RT.execute, RT.Instruction.rType, RT.regFromU32,
          ha, hb, hc, RT.rr, RT.rm, RT.sra32, RT.wr, RT.wm, RT.emitAlu, hnc]
  · intro hop ha hb
    constructor
    · intro hcv
      rcases hop with hop | hop | hop
      · have h2 : op = RT.Opcode.SLLI := hop
        subst h2
        simp [RT.step, hf, RT.execute, RT.Instruction.iType, RT.regFromU32,
          ha, hb, hcv, RT.rr, RT.rm, RT.shl32, RT.shiftSpec, RT.wr, RT.wm,
          RT.emitAlu, RT.regVal]
      · have h2 : op = RT.Opcode.SRLI := hop
        subst h2
        simp [RT.step, hf, RT.execute, RT.Instruction.iType, RT.regFromU32,
          ha, hb, hcv, RT.rr, RT.rm, RT.shr32, RT.shiftSpec, RT.wr, RT.wm,
          RT.emitAlu, RT.regVal]
      · have h2 : op = RT.Opcode.SRAI := hop
        subst h2
        simp [RT.step, hf, RT.execute, RT.Instruction.iType, RT.regFromU32,
          ha, hb, hcv, RT.rr, RT.rm, RT.sra32, RT.shiftSpec, RT.wr, RT.wm,
          RT.emitAlu, RT.regVal]
    · intro hcv
      have hnc : ¬ (ic < 32) := Nat.not_lt.mpr hcv
      rcases hop with hop | hop | hop
      · have h2 : op = RT.Opcode.SLLI := hop
        subst h2
        simp [RT.step, hf, RT.execute, RT.Instruction.iType, RT.regFromU32,
          ha, hb, hnc, RT.rr, RT.rm, RT.shl32, RT.wr, RT.wm, RT.emitAlu]
      · have h2 : op = RT.Opcode.SRLI := hop
        subst h2
        simp [RT.step, hf, RT.execute, RT.Instruction.iType, RT.regFromU32,
          ha, hb, hnc, RT.rr, RT.rm, RT.shr32, RT.wr, RT.wm, RT.emitAlu]
      · have h2 : op = RT.Opcode.SRAI := hop
        subst h2
        simp [RT.step, hf, RT.execute, RT.Instruction.iType, RT.regFromU32,
          ha, hb, hnc, RT.rr, RT.rm, RT.sra32, RT.wr, RT.wm, RT.emitAlu]

/-- C8 amended witness: `srai x2, x1, 2` fetched with x1 holding -16
(0xFFFFFFF0) succeeds and stores 0xFFFFFFFC; the shift amount 2 is below
32. -/
theorem C8_amended_witness :
    (RT.step (RT.wr (RT.runInit (RT.Runtime.new [⟨RT.Opcode.SRAI, 2, 1, 2⟩]))
        1 4294967280)).map (fun t => RT.regVal t 2) =
      some (RT.shiftSpec RT.Opcode.SRAI
        (RT.regVal (RT.wr (RT.runInit
          (RT.Runtime.new [⟨RT.Opcode.SRAI, 2, 1, 2⟩])) 1 4294967280) 1) 2) :=
  ((C8_amended_shift_semantics
      (RT.wr (RT.runInit (RT.Runtime.new [⟨RT.Opcode.SRAI, 2, 1, 2⟩]))
        1 4294967280)
      ⟨RT.Opcode.SRAI, 2, 1, 2⟩ rfl).2
    (Or.inr (Or.inr rfl)) (by decide) (by decide)).1 (by decide)

/-- Helper: an enumeration pass leaves keys it does not insert unchanged. -/
theorem insertEnum_not_mem (es : List EXE.AluEvent) (k : Nat)
    (h : k ∉ EXE.aluIds es) :
    ∀ (start : Nat) (m : Nat → Option Nat), EXE.insertEnum start es m k = m k := by
  induction es with
  | nil => intro start m; rfl
  | cons e rest ih =>
    intro start m
    have hk : ¬ (k = e.lookup_id) := by
      intro he
      exact h (by simp [EXE.aluIds, he])
    have hrest : k ∉ EXE.aluIds rest := by
      intro hx
      apply h
      simp only [EXE.aluIds, List.map_cons, List.mem_cons]
      exact Or.inr hx
    show EXE.insertEnum (start + 1) rest (EXE.mInsert m e.lookup_id start) k = m k
    rw [ih hrest]
    simp [EXE.mInsert, hk]

/-- Helper: when the ids of a stream are distinct, its enumeration pass
assigns `start + i` to the id of the i-th event. -/
theorem insertEnum_get (es : List EXE.AluEvent)
    (h : (EXE.aluIds es).Nodup) :
    ∀ (start : Nat) (m : Nat → Option Nat) (i : Nat) (hi : i < es.length),
      EXE.insertEnum start es m ((es.get ⟨i, hi⟩).lookup_id) =
        some (start + i) := by
  induction es with
  | nil => intro start m i hi; exact absurd hi (by simp)
  | cons e rest ih =>
    intro start m i hi
    have hcons : e.lookup_id ∉ EXE.aluIds rest ∧ (EXE.aluIds rest).Nodup := by
      simpa [EXE.aluIds] using h
    match i with
    | 0 =>
      show EXE.insertEnum (start + 1) rest
        (EXE.mInsert m e.lookup_id start) e.lookup_id = some (start + 0)
      rw [insertEnum_not_mem rest e.lookup_id hcons.1]
      simp [EXE.mInsert]
    | i + 1 =>
      have hi2 : i < rest.length := by
        simp only [List.length_cons] at hi
        omega
      show EXE.insertEnum (start + 1) rest (EXE.mInsert m e.lookup_id start)
        ((rest.get ⟨i, hi2⟩).lookup_id) = some (start + (i + 1))
      rw [ih hcons.2 (start + 1) _ i hi2]
      congr 1
      omega

/-- C6 amended.  After `register_nonces`, when all lookup ids are distinct:
the i-th event of add, mul, bitwise, shift-left, shift-right, divrem and lt
receives nonce i, while the i-th SUB event receives `add_events.len() + i`
(SUB continues the ADD space instead of restarting at 0). -/
theorem C6_amended_nonce_positions (r : EXE.ExecutionRecord)
    (hnd : (EXE.allNonceIds r).Nodup) :
    (∀ i (hi : i < r.add_events.length),
      (EXE.register_nonces r).nonce_lookup
        ((r.add_events.get ⟨i, hi⟩).lookup_id) = some i) ∧
    (∀ i (hi : i < r.sub_events.length),
      (EXE.register_nonces r).nonce_lookup
        ((r.sub_events.get ⟨i, hi⟩).lookup_id) =
          some (r.add_events.length + i)) ∧
    (∀ i (hi : i < r.mul_events.length),
      (EXE.register_nonces r).nonce_lookup
        ((r.mul_events.get ⟨i, hi⟩).lookup_id) = some i) ∧
    (∀ i (hi : i < r.bitwise_events.length),
      (EXE.register_nonces r).nonce_lookup
        ((r.bitwise_events.get ⟨i, hi⟩).lookup_id) = some i) ∧
    (∀ i (hi : i < r.shift_left_events.length),
      (EXE.register_nonces r).nonce_lookup
        ((r.shift_left_events.get ⟨i, hi⟩).lookup_id) = some i) ∧
    (∀ i (hi : i < r.shift_right_events.length),
      (EXE.register_nonces r).nonce_lookup
        ((r.shift_right_events.get ⟨i, hi⟩).lookup_id) = some i) ∧
    (∀ i (hi : i < r.divrem_events.length),
      (EXE.register_nonces r).nonce_lookup
        ((r.divrem_events.get ⟨i, hi⟩).lookup_id) = some i) ∧
    (∀ i (hi : i < r.lt_events.length),
      (EXE.register_nonces r).nonce_lookup
        ((r.lt_events.get ⟨i, hi⟩).lookup_id) = some i) := by
  unfold EXE.allNonceIds at hnd
  obtain ⟨ndA, ndR1, djA⟩ := List.nodup_append.mp hnd
  obtain ⟨ndS, ndR2, djS⟩ := List.nodup_append.mp ndR1
  obtain ⟨ndM, ndR3, djM⟩ := List.nodup_append.mp ndR2
  obtain ⟨ndB, ndR4, djB⟩ := List.nodup_append.mp ndR3
  obtain ⟨ndSL, ndR5, djSL⟩ := List.nodup_append.mp ndR4
  obtain ⟨ndSR, ndR6, djSR⟩ := List.nodup_append.mp ndR5
  obtain ⟨ndD, ndL, djD⟩ := List.nodup_append.mp ndR6
  simp only [EXE.register_nonces]
  refine ⟨?_, ?_, ?_, ?_, ?_, ?_, ?_, ?_⟩
  · intro i hi
    have hx : (r.add_events.get ⟨i, hi⟩).lookup_id ∈ EXE.aluIds r.add_events :=
      List.mem_map_of_mem _ (List.get_mem _ _ _)
    have hrest : _ ∉ _ := djA hx
    simp only [List.mem_append, not_or] at hrest
    rw [insertEnum_not_mem _ _ hrest.2.2.2.2.2.2,
        insertEnum_not_mem _ _ hrest.2.2.2.2.2.1,
        insertEnum_not_mem _ _ hrest.2.2.2.2.1,
        insertEnum_not_mem _ _ hrest.2.2.2.1,
        insertEnum_not_mem _ _ hrest.2.2.1,
        insertEnum_not_mem _ _ hrest.2.1,
        insertEnum_not_mem _ _ hrest.1]
    simpa using insertEnum_get r.add_events ndA 0 r.nonce_lookup i hi
  · intro i hi
    have hx : (r.sub_events.get ⟨i, hi⟩).lookup_id ∈ EXE.aluIds r.sub_events :=
      List.mem_map_of_mem _ (List.get_mem _ _ _)
    have hrest : _ ∉ _ := djS hx
    simp only [List.mem_append, not_or] at hrest
    rw [insertEnum_not_mem _ _ hrest.2.2.2.2.2,
        insertEnum_not_mem _ _ hrest.2.2.2.2.1,
        insertEnum_not_mem _ _ hrest.2.2.2.1,
        insertEnum_not_mem _ _ hrest.2.2.1,
        insertEnum_not_mem _ _ hrest.2.1,
        insertEnum_not_mem _ _ hrest.1]
    exact insertEnum_get r.sub_events ndS r.add_events.length _ i hi
  · intro i hi
    have hx : (r.mul_events.get ⟨i, hi⟩).lookup_id ∈ EXE.aluIds r.mul_events :=
      List.mem_map_of_mem _ (List.get_mem _ _ _)
    have hrest : _ ∉ _ := djM hx
    simp only [List.mem_append, not_or] at hrest
    rw [insertEnum_not_mem _ _ hrest.2.2.2.2,
        insertEnum_not_mem _ _ hrest.2.2.2.1,
        insertEnum_not_mem _ _ hrest.2.2.1,
        insertEnum_not_mem _ _ hrest.2.1,
        insertEnum_not_mem _ _ hrest.1]
    simpa using insertEnum_get r.mul_events ndM 0 _ i hi
  · intro i hi
    have hx : (r.bitwise_events.get ⟨i, hi⟩).lookup_id ∈
        EXE.aluIds r.bitwise_events :=
      List.mem_map_of_mem _ (List.get_mem _ _ _)
    have hrest : _ ∉ _ := djB hx
    simp only [List.mem_append, not_or] at hrest
    rw [insertEnum_not_mem _ _ hrest.2.2.2,
        insertEnum_not_mem _ _ hrest.2.2.1,
        insertEnum_not_mem _ _ hrest.2.1,
        insertEnum_not_mem _ _ hrest.1]
    simpa using insertEnum_get r.bitwise_events ndB 0 _ i hi
  · intro i hi
    have hx : (r.shift_left_events.get ⟨i, hi⟩).lookup_id ∈
        EXE.aluIds r.shift_left_events :=
      List.mem_map_of_mem _ (List.get_mem _ _ _)
    have hrest : _ ∉ _ := djSL hx
    simp only [List.mem_append, not_or] at hrest
    rw [insertEnum_not_mem _ _ hrest.2.2,
        insertEnum_not_mem _ _ hrest.2.1,
        insertEnum_not_mem _ _ hrest.1]
    simpa using insertEnum_get r.shift_left_events ndSL 0 _ i hi
  · intro i hi
    have hx : (r.shift_right_events.get ⟨i, hi⟩).lookup_id ∈
        EXE.aluIds r.shift_right_events :=
      List.mem_map_of_mem _ (List.get_mem _ _ _)
    have hrest : _ ∉ _ := djSR hx
    simp only [List.mem_append, not_or] at hrest
    rw [insertEnum_not_mem _ _ hrest.2,
        insertEnum_not_mem _ _ hrest.1]
    simpa using insertEnum_get r.shift_right_events ndSR 0 _ i hi
  · intro i hi
    have hx : (r.divrem_events.get ⟨i, hi⟩).lookup_id ∈
        EXE.aluIds r.divrem_events :=
      List.mem_map_of_mem _ (List.get_mem _ _ _)
    have hrest : _ ∉ _ := djD hx
    rw [insertEnum_not_mem _ _ hrest]
    simpa using insertEnum_get r.divrem_events ndD 0 _ i hi
  · intro i hi
    simpa using insertEnum_get r.lt_events ndL 0 _ i hi

/-- C6 amended witness: with all eight streams populated by distinct ids,
the first SUB event (id 3) receives nonce `add_events.len() + 0 = 2`. -/
theorem C6_amended_witness :
    (EXE.allNonceIds EXE.nonceRecordB).Nodup ∧
    (EXE.register_nonces EXE.nonceRecordB).nonce_lookup
        ((EXE.nonceRecordB.sub_events.get ⟨0, by decide⟩).lookup_id) =
      some (EXE.nonceRecordB.add_events.length + 0) :=
  ⟨by decide,
   (C6_amended_nonce_positions EXE.nonceRecordB (by decide)).2.1 0 (by decide)⟩

/-- Helper: `k` chunks of `n` concatenate to the first `n·k` elements. -/
theorem chunksExactAux_flatten (n : Nat) :
    ∀ (k : Nat) (l : List Nat),
      (EXE.chunksExactAux n k l).flatten = l.take (n * k) := by
  intro k
  induction k with
  | zero => intro l; simp [EXE.chunksExactAux]
  | succ k ih =>
    intro l
    show (l.take n :: EXE.chunksExactAux n k (l.drop n)).flatten =
      l.take (n * (k + 1))
    rw [List.flatten_cons, ih (l.drop n), Nat.mul_succ, Nat.add_comm,
      List.take_add]

/-- Helper: the full chunks concatenate to the front of the stream. -/
theorem chunksExact_flatten (n : Nat) (l : List Nat) (h : n ≠ 0) :
    (EXE.chunksExact n l).flatten = l.take (n * (l.length / n)) := by
  simp [EXE.chunksExact, h, chunksExactAux_flatten]

/-- Helper: full chunks followed by the remainder restore the stream. -/
theorem chunksExact_append_remainder (n : Nat) (l : List Nat) (h : n ≠ 0) :
    (EXE.chunksExact n l).flatten ++ EXE.chunksRemainder n l = l := by
  rw [chunksExact_flatten n l h]
  simp [EXE.chunksRemainder, h, List.take_append_drop]

/-- Helper: the remainder is shorter than the chunk size. -/
theorem chunksRemainder_length_lt (n : Nat) (l : List Nat) (h : 0 < n) :
    (EXE.chunksRemainder n l).length < n := by
  have h1 : n * (l.length / n) + l.length % n = l.length := Nat.div_add_mod _ _
  have h2 : l.length % n < n := Nat.mod_lt _ h
  simp only [EXE.chunksRemainder, Nat.pos_iff_ne_zero.mp h, if_false,
    List.length_drop]
  omega

/-- Helper: mapping an everywhere-empty stream over a shard list flattens to
nothing. -/
theorem flatten_map_nil {β : Type} (l : List β) (f : β → List Nat)
    (h : ∀ x ∈ l, f x = []) : (l.map f).flatten = [] := by
  induction l with
  | nil => rfl
  | cons a t ih =>
    simp only [List.map_cons, List.flatten_cons, h a (by simp),
      List.nil_append]
    exact ih (fun x hx => h x (by simp [hx]))

/-- Helper: shards cut from a different stream carry no keccak events. -/
theorem split_events_keccak_nil (L : EXE.StreamLens) (t : Nat) (e : Bool)
    (r : EXE.ExecutionRecord)
    (hmk : ∀ p l, (L.mkShard p l).keccak_permute_events = []) :
    ((EXE.split_events L t e r).1.map
      (fun s => s.keccak_permute_events)).flatten = [] := by
  apply flatten_map_nil
  intro x hx
  unfold EXE.split_events at hx
  cases e with
  | false =>
    simp only [Bool.false_eq_true, if_false, List.mem_map] at hx
    obtain ⟨c, _, hc⟩ := hx
    rw [← hc]; exact hmk _ _
  | true =>
    simp only [if_true, List.mem_append, List.mem_map] at hx
    rcases hx with hx | hx
    · by_cases hrem : (EXE.chunksRemainder t (L.get r)).isEmpty
      · rw [if_pos hrem] at hx
        simp at hx
      · rw [if_neg hrem] at hx
        simp only [List.mem_singleton] at hx
        rw [hx]; exact hmk _ _
    · obtain ⟨c, _, hc⟩ := hx
      rw [← hc]; exact hmk _ _

/-- Helper: memory shards carry no keccak events. -/
theorem buildMemShards_keccak_nil (p : Nat) :
    ∀ L ib fb, ∀ x ∈ EXE.buildMemShards p L ib fb,
      x.keccak_permute_events = [] := by
  intro L
  induction L with
  | nil => intro ib fb x hx; simp [EXE.buildMemShards] at hx
  | cons a t ih =>
    intro ib fb x hx
    simp only [EXE.buildMemShards, List.mem_cons] at hx
    rcases hx with hx | hx
    · rw [hx]; rfl
    · exact ih _ _ x hx

/-- Helper: the trailing memory shards contribute no keccak events. -/
theorem memoryShards_keccak_nil (r : EXE.ExecutionRecord)
    (opts : EXE.SplitOpts) :
    ((EXE.memoryShards r opts).map
      (fun s => s.keccak_permute_events)).flatten = [] := by
  apply flatten_map_nil
  intro x hx
  simp only [EXE.memoryShards] at hx
  exact buildMemShards_keccak_nil r.program _ _ _ x hx

/-- Helper: the keccak getter of the keccak lens. -/
theorem keccakLens_get (r : EXE.ExecutionRecord) :
    EXE.keccakLens.get r = r.keccak_permute_events := rfl

/-- Helper: a keccak shard holds exactly its chunk. -/
theorem keccakLens_mkShard_get (p : Nat) (l : List Nat) :
    (EXE.keccakLens.mkShard p l).keccak_permute_events = l := rfl

/-- Helper: the keccak pass itself emits the remainder shard first, then the
full chunks. -/
theorem split_events_keccak_self (t : Nat) (r : EXE.ExecutionRecord) :
    ((EXE.split_events EXE.keccakLens t true r).1.map
      (fun s => s.keccak_permute_events)).flatten =
      EXE.chunksRemainder t r.keccak_permute_events
        ++ (EXE.chunksExact t r.keccak_permute_events).flatten := by
  unfold EXE.split_events
  by_cases hrem : (EXE.chunksRemainder t (EXE.keccakLens.get r)).isEmpty
  · have hnil : EXE.chunksRemainder t r.keccak_permute_events = [] :=
      List.isEmpty_iff.mp hrem
    simp [hrem, hnil, List.map_map, Function.comp_def, keccakLens_get,
      keccakLens_mkShard_get]
  · have hne : ¬ (EXE.chunksRemainder t r.keccak_permute_events = []) := by
      simpa [List.isEmpty_iff] using hrem
    simp [hne, List.map_map, Function.comp_def, keccakLens_get,
      keccakLens_mkShard_get]

/-- C5 amended.  Concatenating the keccak stream across the shards of
`split(last=true, opts)` yields the final partial chunk followed by the
full chunks, in order — a rotation of the pre-split stream (equal to it
exactly when the remainder is empty), the partial shard being emitted
first, with fewer than `opts.keccak` events. -/
theorem C5_amended_split_rotation (r : EXE.ExecutionRecord)
    (opts : EXE.SplitOpts) (hk : 0 < opts.keccak) (hd : 0 < opts.deferred)
    (hse : 0 < opts.sha_extend) (hsc : 0 < opts.sha_compress)
    (hm : 0 < opts.memory) :
    (((EXE.split r true opts).1.map
        (fun s => s.keccak_permute_events)).flatten
      = EXE.chunksRemainder opts.keccak r.keccak_permute_events
        ++ (EXE.chunksExact opts.keccak r.keccak_permute_events).flatten) ∧
    ((EXE.chunksExact opts.keccak r.keccak_permute_events).flatten
        ++ EXE.chunksRemainder opts.keccak r.keccak_permute_events
      = r.keccak_permute_events) ∧
    (EXE.chunksRemainder opts.keccak r.keccak_permute_events).length
      < opts.keccak := by
  refine ⟨?_, chunksExact_append_remainder _ _ (Nat.pos_iff_ne_zero.mp hk),
    chunksRemainder_length_lt _ _ hk⟩
  simp only [EXE.split, if_true, List.map_append, List.flatten_append]
  rw [split_events_keccak_self,
    split_events_keccak_nil EXE.secp256k1AddLens _ _ _ (fun p l => rfl),
    split_events_keccak_nil EXE.secp256k1DoubleLens _ _ _ (fun p l => rfl),
    split_events_keccak_nil EXE.bn254AddLens _ _ _ (fun p l => rfl),
    split_events_keccak_nil EXE.bn254DoubleLens _ _ _ (fun p l => rfl),
    split_events_keccak_nil EXE.bls12381AddLens _ _ _ (fun p l => rfl),
    split_events_keccak_nil EXE.bls12381DoubleLens _ _ _ (fun p l => rfl),
    split_events_keccak_nil EXE.shaExtendLens _ _ _ (fun p l => rfl),
    split_events_keccak_nil EXE.shaCompressLens _ _ _ (fun p l => rfl),
    split_events_keccak_nil EXE.edAddLens _ _ _ (fun p l => rfl),
    split_events_keccak_nil EXE.edDecompressLens _ _ _ (fun p l => rfl),
    split_events_keccak_nil EXE.k256DecompressLens _ _ _ (fun p l => rfl),
    split_events_keccak_nil EXE.uint256MulLens _ _ _ (fun p l => rfl),
    split_events_keccak_nil EXE.bls12381DecompressLens _ _ _ (fun p l => rfl),
    memoryShards_keccak_nil]
  simp

/-- C5 amended witness: on the 11-event record with keccak chunk 3, the
concatenation equals the partial chunk `[9, 10]` followed by the three full
chunks. -/
theorem C5_amended_witness :
    0 < EXE.splitOptsA.keccak ∧
    (((EXE.split EXE.keccakRecordA true EXE.splitOptsA).1.map
        (fun s => s.keccak_permute_events)).flatten
      = EXE.chunksRemainder EXE.splitOptsA.keccak
          EXE.keccakRecordA.keccak_permute_events
        ++ (EXE.chunksExact EXE.splitOptsA.keccak
          EXE.keccakRecordA.keccak_permute_events).flatten) :=
  ⟨by decide,
   (C5_amended_split_rotation EXE.keccakRecordA EXE.splitOptsA (by decide)
     (by decide) (by decide) (by decide) (by decide)).1⟩
